import Mathlib

/-!
Verification of the gb-emu Game Boy emulator core against its specification.

Machine integers are modelled as `Nat` with explicit `% 256` / `% 65536`
(and `&&& 0xFF` masks) exactly where the Rust source wraps (`wrapping_add`,
`overflowing_add`, `as u8`, ...).  Arrays are modelled as total functions
`Nat → Nat`; bounds questions are treated explicitly where a claim is about
them.  Each definition is translated from the named source item.
-/

set_option maxRecDepth 1000

namespace GB

/-! ### CPU pin bundles

`SrcOutputPins` embeds `struct CpuOutputPins { addr: u16, data: u8, is_read: bool }`
from `src/src/cpu/mod.rs`; `CpuInputPins` embeds the input bundle with the five
interrupt request lines (`gb_cpu/src/lib.rs`, used by `src/src/cpu/execute.rs`). -/

structure SrcOutputPins where
  addr : Nat
  data : Nat
  is_read : Bool
deriving DecidableEq

structure CpuInputPins where
  data : Nat := 0
  interrupt_40h : Bool := false
  interrupt_48h : Bool := false
  interrupt_50h : Bool := false
  interrupt_58h : Bool := false
  interrupt_60h : Bool := false
deriving DecidableEq

/-! ### Flag register

Embeds `FRegister` from `src/src/cpu/mod.rs`: a `u8` whose public constants are
ZERO = 0x80, NEGATIVE = 0x40, HALFCARRY = 0x20, CARRY = 0x10. -/

def FReg.ZERO : Nat := 0x80

def FReg.NEGATIVE : Nat := 0x40

def FReg.HALFCARRY : Nat := 0x20

def FReg.CARRY : Nat := 0x10

def FReg.EMPTY : Nat := 0

/-- `FRegister::contains`: the source computes `self.0 | other.0 != 0`
(a bitwise OR, as written in `src/src/cpu/mod.rs`). -/
def fregContains (f other : Nat) : Bool := (f ||| other) != 0

/-- `Not for FRegister`: `(!self.0) & 0xF0`; on a `u8` the complement is `255 ^^^ f`. -/
def fregNot (f : Nat) : Nat := (255 ^^^ f) &&& 0xF0

/-- `FRegister::set`: `self | other`. -/
def fregSet (f other : Nat) : Nat := f ||| other

/-- `FRegister::unset`: `self & !other`. -/
def fregUnset (f other : Nat) : Nat := f &&& fregNot other

/-- `FRegister::set_value`: `if value { set } else { unset }`. -/
def fregSetValue (f flags : Nat) (value : Bool) : Nat :=
  if value then fregSet f flags else fregUnset f flags

/-- `From<u8> for FRegister`: `FRegister(v & 0xF0)`. -/
def fregFromU8 (v : Nat) : Nat := v &&& 0xF0

/-! ### Register file

Embeds `Registers` from `src/src/cpu/mod.rs` (eight 8-bit registers plus SP, PC). -/

structure Registers where
  a : Nat := 0
  f : Nat := 0
  b : Nat := 0
  c : Nat := 0
  d : Nat := 0
  e : Nat := 0
  h : Nat := 0
  l : Nat := 0
  sp : Nat := 0
  pc : Nat := 0
deriving DecidableEq

/-- `Registers::get_af`: `(a as u16) << 8 | f as u16`. -/
def Registers.get_af (r : Registers) : Nat := (r.a <<< 8) ||| r.f

/-- `Registers::set_af`: `a = (v >> 8) as u8; f = ((v & 0xFF) as u8).into()`. -/
def Registers.set_af (r : Registers) (v : Nat) : Registers :=
  { r with a := (v >>> 8) &&& 0xFF, f := fregFromU8 (v &&& 0xFF) }

/-! ### ALU

Embeds `Cpu::do_math` from `src/src/cpu/execute.rs` (lines 67-187). -/

inductive MathOperation
  | Add
  | Adc
  | Sub
  | Sbc
  | And
  | Xor
  | Or
  | Cp
deriving DecidableEq

def do_math (r : Registers) (v : Nat) (op : MathOperation) : Registers :=
  match op with
  | .Add =>
    let a := r.a
    let sum := (a + v) % 256
    let overflow : Bool := decide (256 ≤ a + v)
    let f := r.f
    let f := fregUnset f FReg.NEGATIVE
    let f := fregSetValue f FReg.ZERO (sum == 0)
    let f := fregSetValue f FReg.HALFCARRY (decide (0x10 ≤ (a &&& 0x0F) + (v &&& 0x0F)))
    let f := fregSetValue f FReg.CARRY overflow
    { r with a := sum, f := f }
  | .Adc =>
    let a := r.a
    let sum1 := (a + v) % 256
    let overflow1 : Bool := decide (256 ≤ a + v)
    let carry_in := if fregContains r.f FReg.CARRY then 1 else 0
    let sum := (sum1 + carry_in) % 256
    let overflow2 : Bool := decide (256 ≤ sum1 + carry_in)
    let overflow := overflow1 || overflow2
    let f := r.f
    let f := fregUnset f FReg.NEGATIVE
    let f := fregSetValue f FReg.ZERO (sum == 0)
    let f := fregSetValue f FReg.HALFCARRY (decide (0x10 ≤ (a &&& 0x0F) + (v &&& 0x0F)))
    let f := fregSetValue f FReg.CARRY overflow
    { r with a := sum, f := f }
  | .Sub =>
    -- `let nv = (!v).wrapping_add(1);` — two's complement of v
    let a := r.a
    let nv := ((255 ^^^ v) + 1) % 256
    let sum := (a + nv) % 256
    let overflow : Bool := decide (256 ≤ a + nv)
    let f := r.f
    let f := fregSet f FReg.NEGATIVE
    let f := fregSetValue f FReg.ZERO (sum == 0)
    let f := fregSetValue f FReg.HALFCARRY (decide (0x10 ≤ (a &&& 0x0F) + (nv &&& 0x0F)))
    let f := fregSetValue f FReg.CARRY overflow
    { r with a := sum, f := f }
  | .Sbc =>
    -- the source's Sbc arm is byte-for-byte the Adc arm (it adds v plus carry
    -- and unsets NEGATIVE)
    let a := r.a
    let sum1 := (a + v) % 256
    let overflow1 : Bool := decide (256 ≤ a + v)
    let carry_in := if fregContains r.f FReg.CARRY then 1 else 0
    let sum := (sum1 + carry_in) % 256
    let overflow2 : Bool := decide (256 ≤ sum1 + carry_in)
    let overflow := overflow1 || overflow2
    let f := r.f
    let f := fregUnset f FReg.NEGATIVE
    let f := fregSetValue f FReg.ZERO (sum == 0)
    let f := fregSetValue f FReg.HALFCARRY (decide (0x10 ≤ (a &&& 0x0F) + (v &&& 0x0F)))
    let f := fregSetValue f FReg.CARRY overflow
    { r with a := sum, f := f }
  | .And =>
    let new_a := r.a &&& v
    let f := r.f
    let f := fregUnset f FReg.NEGATIVE
    let f := fregSetValue f FReg.ZERO (new_a == 0)
    let f := fregSet f FReg.HALFCARRY
    let f := fregUnset f FReg.CARRY
    { r with a := new_a, f := f }
  | .Xor =>
    let new_a := r.a ^^^ v
    let f := r.f
    let f := fregUnset f FReg.NEGATIVE
    let f := fregSetValue f FReg.ZERO (new_a == 0)
    let f := fregUnset f FReg.HALFCARRY
    let f := fregUnset f FReg.CARRY
    { r with a := new_a, f := f }
  | .Or =>
    let new_a := r.a ||| v
    let f := r.f
    let f := fregUnset f FReg.NEGATIVE
    let f := fregSetValue f FReg.ZERO (new_a == 0)
    let f := fregUnset f FReg.HALFCARRY
    let f := fregUnset f FReg.CARRY
    { r with a := new_a, f := f }
  | .Cp =>
    let a := r.a
    let nv := ((255 ^^^ v) + 1) % 256
    let sum := (a + nv) % 256
    let overflow : Bool := decide (256 ≤ a + nv)
    let f := r.f
    let f := fregSet f FReg.NEGATIVE
    let f := fregSetValue f FReg.ZERO (sum == 0)
    let f := fregSetValue f FReg.HALFCARRY (decide (0x10 ≤ (a &&& 0x0F) + (nv &&& 0x0F)))
    let f := fregSetValue f FReg.CARRY overflow
    { r with f := f }

/-! ### Instruction-boundary behavior (interrupt dispatch)

Embeds the head of the generator loop in `cpu_runner_gen`
(`src/src/cpu/execute.rs`, lines 411-453): the interrupt check, the dispatch
sequence, and the opcode fetch that follows.  Each element of the returned
list is the pin output of one M-cycle (one `yield`); the fetch of the
handler's first byte is the last element. -/

structure Cpu where
  registers : Registers := {}
  ime : Bool := false
deriving DecidableEq

/-- `Cpu::fetch_byte`: put PC on the address pins and increment PC. -/
def Cpu.fetch_byte (c : Cpu) : Cpu × SrcOutputPins :=
  let pc := c.registers.pc
  ({ c with registers := { c.registers with pc := (pc + 1) % 65536 } },
   { addr := pc, data := 0, is_read := true })

/-- `Cpu::nop`: pins for an internal cycle (a read of address 0). -/
def nopPins : SrcOutputPins := { addr := 0, data := 0, is_read := true }

/-- `Cpu::write_byte`: pins for a memory write. -/
def writePins (addr data : Nat) : SrcOutputPins := { addr := addr, data := data, is_read := false }

/-- The if/else-if chain over the five interrupt lines (lowest vector first). -/
def interruptVector (pins : CpuInputPins) : Option Nat :=
  if pins.interrupt_40h then some 0x40
  else if pins.interrupt_48h then some 0x48
  else if pins.interrupt_50h then some 0x50
  else if pins.interrupt_58h then some 0x58
  else if pins.interrupt_60h then some 0x60
  else none

/-- One instruction boundary of `cpu_runner_gen`: if IME is set and an
interrupt line is pending, run the interrupt service routine (two internal
cycles, push PC high at SP-1, push PC low at SP-2, set PC to the vector,
clear IME, one more internal cycle), then fetch the next opcode. -/
def boundaryTrace (cpu : Cpu) (pins : CpuInputPins) : Cpu × List SrcOutputPins :=
  if cpu.ime then
    match interruptVector pins with
    | some vector =>
      let y1 := nopPins
      let y2 := nopPins
      let pc := cpu.registers.pc
      let pc_lo := pc &&& 0xFF
      let pc_hi := (pc >>> 8) &&& 0xFF
      let regs := cpu.registers
      let regs := { regs with sp := (regs.sp + 65535) % 65536 }
      let y3 := writePins regs.sp pc_hi
      let regs := { regs with sp := (regs.sp + 65535) % 65536 }
      let y4 := writePins regs.sp pc_lo
      let regs := { regs with pc := vector }
      let cpu' : Cpu := { registers := regs, ime := false }
      let y5 := nopPins
      let (cpu'', y6) := cpu'.fetch_byte
      (cpu'', [y1, y2, y3, y4, y5, y6])
    | none =>
      let (cpu', y) := cpu.fetch_byte
      (cpu', [y])
  else
    let (cpu', y) := cpu.fetch_byte
    (cpu', [y])

/-! ### Helper lemmas on low-nybble masks -/

theorem and_mask_zero (x m k : Nat) (h : m &&& k = 0) : x &&& m &&& k = 0 := by
  rw [Nat.and_assoc, h, Nat.and_zero]

theorem low4_or {f g : Nat} (hf : f &&& 0x0F = 0) (hg : g &&& 0x0F = 0) :
    (f ||| g) &&& 0x0F = 0 := by
  apply Nat.eq_of_testBit_eq
  intro i
  have hf' := congrArg (fun n => n.testBit i) hf
  have hg' := congrArg (fun n => n.testBit i) hg
  simp only [Nat.testBit_and, Nat.zero_testBit] at hf' hg' ⊢
  simp only [Nat.testBit_or]
  cases hb : Nat.testBit 0x0F i with
  | false => simp [hb]
  | true =>
    simp [hb] at hf' hg' ⊢
    simp [hf', hg']

theorem low4_unset (f g : Nat) : fregUnset f g &&& 0x0F = 0 := by
  have h : fregNot g &&& 0x0F = 0 :=
    and_mask_zero (255 ^^^ g) 0xF0 0x0F (by decide)
  exact and_mask_zero f (fregNot g) 0x0F h

theorem low4_fromU8 (v : Nat) : fregFromU8 v &&& 0x0F = 0 :=
  and_mask_zero v 0xF0 0x0F (by decide)

/-! ### Claim theorems: C1, C2, C8 -/

/-- C1: evaluating the interrupt dispatch of `cpu_runner_gen` at the spec's
scenario (IME set, vector-0x40 line pending, PC=0x0200, SP=0xFFFE).  The code
performs two internal cycles, pushes 0x02 at 0xFFFD and 0x00 at 0xFFFC, runs a
third internal cycle, and only on the sixth M-cycle fetches the handler's
first byte at 0x0040 — six M-cycles including that fetch, where the claim
demands five; and no cycle of the dispatch writes 0xFF0F, so the pending IF
bit is never cleared by the dispatch. -/
theorem c1_dispatch_eval :
    (boundaryTrace { registers := { pc := 0x0200, sp := 0xFFFE }, ime := true }
        { interrupt_40h := true }).2 =
      [nopPins, nopPins, writePins 0xFFFD 0x02, writePins 0xFFFC 0x00, nopPins,
       { addr := 0x0040, data := 0, is_read := true }] ∧
    (boundaryTrace { registers := { pc := 0x0200, sp := 0xFFFE }, ime := true }
        { interrupt_40h := true }).2.length = 6 ∧
    (boundaryTrace { registers := { pc := 0x0200, sp := 0xFFFE }, ime := true }
        { interrupt_40h := true }).1.registers.sp = 0xFFFC ∧
    (boundaryTrace { registers := { pc := 0x0200, sp := 0xFFFE }, ime := true }
        { interrupt_40h := true }).1.ime = false ∧
    ((boundaryTrace { registers := { pc := 0x0200, sp := 0xFFFE }, ime := true }
        { interrupt_40h := true }).2.all
      (fun p => p.is_read || decide (p.addr ≠ 0xFF0F))) = true := by
  decide

/-- C2: evaluating `do_math` shows the claimed subtraction flag semantics fail.
SUB with A=0x10, v=0x01 yields A=0x0F but F = NEGATIVE|CARRY (0x50): the
half-carry flag is clear although a borrow from bit 4 occurred, and the carry
flag is set although no borrow from bit 7 occurred (the claim demands
F = NEGATIVE|HALFCARRY = 0x60).  SBC with A=0x05, v=0x01 and no incoming carry
yields A=0x07 with F=0 (the Sbc arm adds v plus a carry-in that
`FRegister::contains` reports as always set, and clears NEGATIVE), where the
claim demands A=0x04 and N=1. -/
theorem c2_sub_sbc_eval :
    (do_math { a := 0x10 } 0x01 .Sub).a = 0x0F ∧
    (do_math { a := 0x10 } 0x01 .Sub).f = (FReg.NEGATIVE ||| FReg.CARRY) ∧
    (do_math { a := 0x10 } 0x01 .Sub).f ≠ (FReg.NEGATIVE ||| FReg.HALFCARRY) ∧
    (do_math { a := 0x05 } 0x01 .Sbc).a = 0x07 ∧
    (do_math { a := 0x05 } 0x01 .Sbc).f = 0 := by
  decide

/-- C8: the low nybble of F is always zero.  Every flag operation of
`FRegister` preserves a zero low nybble (`unset` and `From<u8>` even force
it), and `Registers::set_af` stores into F exactly the high four bits of the
written value's low byte. -/
theorem c8_f_low_nybble :
    (∀ f g : Nat, f &&& 0x0F = 0 → g &&& 0x0F = 0 → fregSet f g &&& 0x0F = 0) ∧
    (∀ f g : Nat, fregUnset f g &&& 0x0F = 0) ∧
    (∀ (f g : Nat) (b : Bool), f &&& 0x0F = 0 → g &&& 0x0F = 0 →
      fregSetValue f g b &&& 0x0F = 0) ∧
    (∀ v : Nat, fregFromU8 v &&& 0x0F = 0) ∧
    (∀ (r : Registers) (v : Nat),
      (Registers.set_af r v).f = (v &&& 0xFF) &&& 0xF0 ∧
      (Registers.set_af r v).f &&& 0x0F = 0) := by
  refine ⟨?_, ?_, ?_, ?_, ?_⟩
  · intro f g hf hg
    exact low4_or hf hg
  · intro f g
    exact low4_unset f g
  · intro f g b hf hg
    cases b with
    | false => exact low4_unset f g
    | true => exact low4_or hf hg
  · intro v
    exact low4_fromU8 v
  · intro r v
    refine ⟨rfl, ?_⟩
    exact and_mask_zero (v &&& 0xFF) 0xF0 0x0F (by decide)

/-- C8 witness: the theorem applied at concrete inputs, discharging every
hypothesis. -/
theorem c8_f_low_nybble_witness :
    (fregSet 0x80 0x10 &&& 0x0F = 0) ∧
    (fregSetValue 0xF0 0x20 true &&& 0x0F = 0) ∧
    ((Registers.set_af { } 0xABCD).f = (0xABCD &&& 0xFF) &&& 0xF0) :=
  ⟨c8_f_low_nybble.1 0x80 0x10 (by decide) (by decide),
   c8_f_low_nybble.2.2.1 0xF0 0x20 true (by decide) (by decide),
   (c8_f_low_nybble.2.2.2.2 { } 0xABCD).1⟩

/-! ### Bus pin bundle of the gb_core chips

Embeds `enum CpuOutputPins { Read { addr }, Write { addr, data } }` from
`gb_cpu/src/lib.rs`, the bundle every chip's `clock` receives. -/

inductive CpuOutputPins
  | Read (addr : Nat)
  | Write (addr : Nat) (data : Nat)
deriving DecidableEq

/-- `CpuOutputPins::addr`. -/
def CpuOutputPins.addr : CpuOutputPins → Nat
  | .Read a => a
  | .Write a _ => a

/-- Pointwise array update (arrays are modelled as total functions). -/
def updFn (f : Nat → Nat) (i v : Nat) : Nat → Nat := fun j => if j = i then v else f j

/-! ### Memory chip

Embeds `Memory` from `gb_core/src/gameboy/memory.rs`: two 4 KiB work-RAM
halves and 127 B of high RAM. -/

structure Memory where
  work_ram_1 : Nat → Nat
  work_ram_2 : Nat → Nat
  high_ram : Nat → Nat

/-- `Memory::address_is_in_range`: `matches!(addr, 0xC000..=0xDFFF | 0xFF80..=0xFFFE)`. -/
def Memory.address_is_in_range (addr : Nat) : Bool :=
  decide ((0xC000 ≤ addr ∧ addr ≤ 0xDFFF) ∨ (0xFF80 ≤ addr ∧ addr ≤ 0xFFFE))

/-- `Index<u16> for Memory`.  The source panics on any other address; that arm
is unreachable from `Memory::clock`, whose range check gates every access, so
it is modelled as 0. -/
def Memory.read (m : Memory) (index : Nat) : Nat :=
  if 0xC000 ≤ index ∧ index ≤ 0xCFFF then m.work_ram_1 (index - 0xC000)
  else if 0xD000 ≤ index ∧ index ≤ 0xDFFF then m.work_ram_2 (index - 0xD000)
  else if 0xFF80 ≤ index ∧ index ≤ 0xFFFE then m.high_ram (index - 0xFF80)
  else 0

/-- `IndexMut<u16> for Memory` (same ranges as `Memory.read`). -/
def Memory.write (m : Memory) (index v : Nat) : Memory :=
  if 0xC000 ≤ index ∧ index ≤ 0xCFFF then
    { m with work_ram_1 := updFn m.work_ram_1 (index - 0xC000) v }
  else if 0xD000 ≤ index ∧ index ≤ 0xDFFF then
    { m with work_ram_2 := updFn m.work_ram_2 (index - 0xD000) v }
  else if 0xFF80 ≤ index ∧ index ≤ 0xFFFE then
    { m with high_ram := updFn m.high_ram (index - 0xFF80) v }
  else m

/-- `Chip::clock for Memory`: drive the data line on a read, store on a write,
only when the address is in range; the interrupt-request byte is untouched. -/
def Memory.clock (m : Memory) (input : CpuOutputPins) (data ir : Nat) :
    Memory × Nat × Nat :=
  if Memory.address_is_in_range input.addr then
    match input with
    | .Read addr => (m, Memory.read m addr, ir)
    | .Write addr v => (Memory.write m addr v, data, ir)
  else (m, data, ir)

/-! ### MBC1 cartridge mapper

Embeds `Mbc1Generic` from `src/src/gameboy/cart/mbc1.rs`.  `data` models
`Vec<Bank>` (0x80 banks of 0x4000 bytes) as bank-index → offset → byte. -/

structure Mbc1 where
  data : Nat → Nat → Nat
  ram : Nat → Nat
  ram_enable : Bool
  rom_bank_lower : Nat
  rom_bank_upper : Nat
  mode_select : Bool

/-- The bank index computed by `Mbc1Generic::bank_0`. -/
def Mbc1.bank_0 (m : Mbc1) : Nat :=
  if m.mode_select then (m.rom_bank_upper <<< 5) % 256 else 0

/-- The bank index computed by `Mbc1Generic::bank_1`.  In the source,
`self.rom_bank_upper << 5 + lower` parses as `upper << (5 + lower)` (a `u8`
shift, which aborts on overflow in debug builds; release semantics are
modelled by the mask). -/
def Mbc1.bank_1 (m : Mbc1) : Nat :=
  let lower := if m.rom_bank_lower == 0 then 1 else m.rom_bank_lower
  if m.mode_select then (m.rom_bank_upper <<< (5 + lower)) % 256 else 0

/-- `Chip::clock for Mbc1Generic` (read arm drives data; write arm updates the
control registers).  The source panics on addresses outside its ranges; those
arms are unreachable behind `chip_select` and are modelled as no-ops. -/
def Mbc1.clock (m : Mbc1) (input : CpuOutputPins) : Mbc1 × Nat :=
  match input with
  | .Read addr =>
    if addr ≤ 0x3FFF then (m, m.data m.bank_0 addr)
    else if addr ≤ 0x7FFF then (m, m.data m.bank_1 (addr - 0x4000))
    else if 0xA000 ≤ addr ∧ addr ≤ 0xBFFF then
      (m, if m.ram_enable then m.ram (addr - 0xA000) else 0)
    else (m, 0)
  | .Write addr v =>
    if addr ≤ 0x1FFF then ({ m with ram_enable := v &&& 0x0F == 0xA }, 0)
    else if addr ≤ 0x3FFF then ({ m with rom_bank_lower := v &&& 0x1F }, 0)
    else if addr ≤ 0x5FFF then ({ m with rom_bank_upper := v &&& 0x03 }, 0)
    else if addr ≤ 0x7FFF then ({ m with mode_select := !(v == 0) }, 0)
    else if 0xA000 ≤ addr ∧ addr ≤ 0xBFFF then
      (if m.ram_enable then { m with ram := updFn m.ram (addr - 0xA000) v } else m, 0)
    else (m, 0)

/-! ### Timer chip

Embeds `Timer` from `gb_core/src/gameboy/timer.rs`. -/

structure Timer where
  div : Nat := 0
  tima : Nat := 0
  tma : Nat := 0
  tac : Nat := 0
deriving DecidableEq

/-- The register-access match at the head of `Timer::clock`; returns the
updated timer, the driven data value, and the `tima_write` guard flag. -/
def Timer.busAccess (t : Timer) (input : CpuOutputPins) (data : Nat) :
    Timer × Nat × Bool :=
  match input with
  | .Write 0xFF04 _ => ({ t with div := 0 }, data, false)
  | .Read 0xFF04 => (t, (t.div >>> 8) &&& 0xFF, false)
  | .Write 0xFF05 v => ({ t with tima := v }, data, true)
  | .Read 0xFF05 => (t, t.tima, false)
  | .Write 0xFF06 v => ({ t with tma := v }, data, false)
  | .Read 0xFF06 => (t, t.tma, false)
  | .Write 0xFF07 v => ({ t with tac := v }, data, false)
  | .Read 0xFF07 => (t, t.tac, false)
  | _ => (t, data, false)

/-- The `div_compare` table selected by TAC's low two bits. -/
def Timer.div_compare (tac : Nat) : Nat :=
  match tac &&& 0b11 with
  | 0 => 1024
  | 1 => 16
  | 2 => 64
  | _ => 256

/-- `Chip::clock for Timer`: bus access, then DIV += 4 (one M-cycle = four
T-states), then the gated TIMA increment with overflow reload from TMA and
interrupt-bit-2 request, skipped entirely when TIMA was written this cycle. -/
def Timer.clock (t : Timer) (input : CpuOutputPins) (data ir : Nat) :
    Timer × Nat × Nat :=
  let io := Timer.busAccess t input data
  let t1 := io.1
  let data1 := io.2.1
  let tima_write := io.2.2
  let div := (t1.div + 4) % 65536
  let timer_enable : Bool := t1.tac &&& 0b100 != 0
  let timer_inc := timer_enable && (div % Timer.div_compare t1.tac == 0)
  if !tima_write && timer_inc then
    let tima := (t1.tima + 1) % 256
    let carry : Bool := decide (256 ≤ t1.tima + 1)
    if carry then ({ t1 with div := div, tima := t1.tma }, data1, ir ||| 0b100)
    else ({ t1 with div := div, tima := tima }, data1, ir)
  else ({ t1 with div := div }, data1, ir)

/-- Iterate `Timer::clock` with an idle bus (a read of address 0), threading
the interrupt-request byte. -/
def timerSteps : Nat → Timer × Nat → Timer × Nat
  | 0, s => s
  | n + 1, (t, ir) =>
    let r := Timer.clock t (.Read 0x0000) 0xFF ir
    timerSteps n (r.1, r.2.2)

/-! ### Cartridge construction

Embeds `Cart::new` and `mapper_from_id` from `gb_core/src/gameboy/cart/mod.rs`. -/

inductive Mapper
  | rom
  | mbc1
  | mbc1WithRam
  | mbc1WithBatteryRam
deriving DecidableEq

/-- Outcome of `Cart::new`: a constructed mapper, the returned
`Err("Invalid ROM file")`, or the process abort raised by the
`panic!("Mapper unimplemented")` arm of `mapper_from_id`. -/
inductive CartNew
  | ok (m : Mapper)
  | invalidRom
  | mapperPanicked
deriving DecidableEq

/-- `mapper_from_id`; `none` models the panic arm. -/
def mapper_from_id (id : Nat) : Option Mapper :=
  match id with
  | 0 => some .rom
  | 1 => some .mbc1
  | 2 => some .mbc1WithRam
  | 3 => some .mbc1WithBatteryRam
  | _ => none

/-- `Cart::new`: `data.get(0x147).ok_or("Invalid ROM file")?` then
`mapper_from_id`. -/
def Cart.new (data : List Nat) : CartNew :=
  match data.get? 0x147 with
  | none => .invalidRom
  | some id =>
    match mapper_from_id id with
    | some m => .ok m
    | none => .mapperPanicked

/-! ### Claim theorems: C3, C4, C5, C9 -/

/-- A memory whose work RAM is filled with 0x12 (used as concrete input). -/
def memC3 : Memory :=
  { work_ram_1 := fun _ => 0x12, work_ram_2 := fun _ => 0x12, high_ram := fun _ => 0 }

/-- C3 counterexample: with work RAM holding 0x12 everywhere, a bus read at
echo address 0xE000 leaves the data accumulator at its 0xFF default instead
of returning WRAM[0xE000 & 0xDFFF] = 0x12, and a bus write of 0x34 at 0xE000
leaves that WRAM byte unchanged — the echo region does not mirror WRAM. -/
theorem c3_echo_not_mirrored :
    (Memory.clock memC3 (.Read 0xE000) 0xFF 0).2.1 = 0xFF ∧
    Memory.read memC3 (0xE000 &&& 0xDFFF) = 0x12 ∧
    (0xFF : Nat) ≠ 0x12 ∧
    (Memory.clock memC3 (.Write 0xE000 0x34) 0xFF 0).1.work_ram_1 0 = 0x12 := by
  refine ⟨?_, by decide, by decide, ?_⟩ <;> decide

/-- C3 amended: every bus access in 0xE000-0xFDFF is outside
`Memory::address_is_in_range`, so `Memory::clock` ignores it: reads leave the
data accumulator (bus default 0xFF) unchanged and writes change nothing. -/
theorem c3_echo_region_unmapped :
    ∀ (m : Memory) (addr v data ir : Nat),
      0xE000 ≤ addr → addr ≤ 0xFDFF →
      Memory.clock m (.Read addr) data ir = (m, data, ir) ∧
      Memory.clock m (.Write addr v) data ir = (m, data, ir) := by
  intro m addr v data ir h1 h2
  have hrange : Memory.address_is_in_range addr = false := by
    unfold Memory.address_is_in_range
    simp only [decide_eq_false_iff_not]
    omega
  constructor
  · simp [Memory.clock, CpuOutputPins.addr, hrange]
  · simp [Memory.clock, CpuOutputPins.addr, hrange]

/-- C3 witness: the amended theorem applied at a concrete state and address. -/
theorem c3_echo_region_unmapped_witness :
    Memory.clock memC3 (.Read 0xFD00) 0xFF 0 = (memC3, 0xFF, 0) ∧
    Memory.clock memC3 (.Write 0xFD00 0x77) 0xFF 0 = (memC3, 0xFF, 0) :=
  c3_echo_region_unmapped memC3 0xFD00 0x77 0xFF 0 (by decide) (by decide)

/-- An MBC1 cartridge whose ROM stores, in every byte, the index of the bank
holding it (used as concrete input); control state is the reset state. -/
def mbc1C4 : Mbc1 :=
  { data := fun bank _ => bank % 256,
    ram := fun _ => 0,
    ram_enable := false,
    rom_bank_lower := 1,
    rom_bank_upper := 0,
    mode_select := false }

/-- C4: after writing 0x02 to 0x2000 (low bank register := 2, mode 0), a read
at 0x4000 returns a byte of ROM bank 0, not of bank (upper<<5 | low) = 2:
`bank_1` yields bank index 0 whenever `mode_select` is false. -/
theorem c4_bank1_read_eval :
    ((Mbc1.clock mbc1C4 (.Write 0x2000 0x02)).1).rom_bank_lower = 2 ∧
    ((Mbc1.clock mbc1C4 (.Write 0x2000 0x02)).1).mode_select = false ∧
    Mbc1.bank_1 ((Mbc1.clock mbc1C4 (.Write 0x2000 0x02)).1) = 0 ∧
    (Mbc1.clock ((Mbc1.clock mbc1C4 (.Write 0x2000 0x02)).1) (.Read 0x4000)).2 = 0 ∧
    (((Mbc1.clock mbc1C4 (.Write 0x2000 0x02)).1).rom_bank_upper <<< 5 |||
        ((Mbc1.clock mbc1C4 (.Write 0x2000 0x02)).1).rom_bank_lower) = 2 ∧
    mbc1C4.data 2 0 = 2 ∧
    (0 : Nat) ≠ 2 := by
  refine ⟨by decide, by decide, by decide, by decide, by decide, by decide, by decide⟩

/-- C5: TIMA overflow behavior of `Timer::clock`.  (1) On any clock whose bus
access is not a TIMA write, if the timer is enabled, the incremented DIV hits
the selected rate, and TIMA is 0xFF, then TIMA is reloaded from TMA and bit 2
is OR-ed into the interrupt-request byte.  (2) A TIMA write in the same
M-cycle cancels the increment/reload: TIMA keeps the written value and the
interrupt-request byte is unchanged.  (3) With TAC=0b101, TIMA=0xFF,
TMA=0x12 and DIV=0, the overflow happens on the fourth M-cycle — after
exactly 16 T-states — and not earlier. -/
theorem c5_timer_overflow :
    (∀ (t : Timer) (input : CpuOutputPins) (data ir : Nat),
      (Timer.busAccess t input data).2.2 = false →
      (Timer.busAccess t input data).1.tac &&& 0b100 ≠ 0 →
      (((Timer.busAccess t input data).1.div + 4) % 65536) %
          Timer.div_compare (Timer.busAccess t input data).1.tac = 0 →
      (Timer.busAccess t input data).1.tima = 0xFF →
      (Timer.clock t input data ir).1.tima = (Timer.busAccess t input data).1.tma ∧
      (Timer.clock t input data ir).2.2 = (ir ||| 0b100)) ∧
    (∀ (t : Timer) (v data ir : Nat),
      (Timer.clock t (.Write 0xFF05 v) data ir).1.tima = v ∧
      (Timer.clock t (.Write 0xFF05 v) data ir).2.2 = ir) ∧
    ((timerSteps 3 ({ div := 0, tima := 0xFF, tma := 0x12, tac := 0b101 }, 0)).1.tima
        = 0xFF ∧
      (timerSteps 3 ({ div := 0, tima := 0xFF, tma := 0x12, tac := 0b101 }, 0)).2 = 0 ∧
      (timerSteps 4 ({ div := 0, tima := 0xFF, tma := 0x12, tac := 0b101 }, 0)).1.tima
        = 0x12 ∧
      (timerSteps 4 ({ div := 0, tima := 0xFF, tma := 0x12, tac := 0b101 }, 0)).2
        = 0b100) := by
  refine ⟨?_, ?_, by decide⟩
  · intro t input data ir h1 h2 h3 h4
    unfold Timer.clock
    simp only [h1, Bool.not_false, Bool.true_and]
    have he : ((Timer.busAccess t input data).1.tac &&& 0b100 != 0) = true := by
      simpa [bne_iff_ne] using h2
    have hm : ((((Timer.busAccess t input data).1.div + 4) % 65536) %
        Timer.div_compare (Timer.busAccess t input data).1.tac == 0) = true := by
      simpa [beq_iff_eq] using h3
    simp [he, hm, h4]
  · intro t v data ir
    exact ⟨rfl, rfl⟩

/-- C5 witness: the theorem applied at concrete inputs, discharging every
hypothesis (DIV=12 so the incremented DIV is 16, a multiple of the /16 rate). -/
theorem c5_timer_overflow_witness :
    ((Timer.clock { div := 12, tima := 0xFF, tma := 0x12, tac := 0b101 }
        (.Read 0x0000) 0xFF 0).1.tima = 0x12 ∧
      (Timer.clock { div := 12, tima := 0xFF, tma := 0x12, tac := 0b101 }
        (.Read 0x0000) 0xFF 0).2.2 = (0 ||| 0b100)) ∧
    ((Timer.clock { div := 0, tima := 0xFF, tma := 0x12, tac := 0b101 }
        (.Write 0xFF05 0x55) 0xFF 0).1.tima = 0x55 ∧
      (Timer.clock { div := 0, tima := 0xFF, tma := 0x12, tac := 0b101 }
        (.Write 0xFF05 0x55) 0xFF 0).2.2 = 0) :=
  ⟨c5_timer_overflow.1 { div := 12, tima := 0xFF, tma := 0x12, tac := 0b101 }
      (.Read 0x0000) 0xFF 0 (by decide) (by decide) (by decide) (by decide),
   c5_timer_overflow.2.1 { div := 0, tima := 0xFF, tma := 0x12, tac := 0b101 }
      0x55 0xFF 0⟩

/-- A 0x148-byte ROM image whose mapper-id byte 0x147 is 0x04 (an id
`mapper_from_id` does not implement). -/
def romC9 : List Nat := List.replicate 0x147 0 ++ [0x04]

/-- C9 counterexample: on a ROM whose header byte 0x147 is the unsupported
mapper id 0x04, `Cart::new` reaches the `panic!("Mapper unimplemented")` arm
of `mapper_from_id` — the process aborts instead of a failure value being
returned (and this is not the `Err("Invalid ROM file")` outcome). -/
theorem c9_unknown_mapper_aborts :
    Cart.new romC9 = .mapperPanicked ∧
    Cart.new romC9 ≠ .invalidRom := by
  refine ⟨by decide, by decide⟩

/-- C9 amended: a ROM too short to contain byte 0x147 yields
`Err("Invalid ROM file")`; a ROM whose byte 0x147 is 0, 1, 2 or 3 constructs
a mapper; any other id reaches the panic (a process abort), not a returned
failure. -/
theorem c9_cart_new_outcomes :
    (∀ data : List Nat, data.length ≤ 0x147 → Cart.new data = .invalidRom) ∧
    (∀ (data : List Nat) (id : Nat), data.get? 0x147 = some id → 4 ≤ id →
      Cart.new data = .mapperPanicked) ∧
    (∀ (data : List Nat) (id : Nat), data.get? 0x147 = some id → id < 4 →
      ∃ m, Cart.new data = .ok m) := by
  refine ⟨?_, ?_, ?_⟩
  · intro data hlen
    unfold Cart.new
    have : data.get? 0x147 = none := by
      rw [List.get?_eq_none]
      exact hlen
    rw [this]
  · intro data id hget h4
    have hnone : mapper_from_id id = none := by
      unfold mapper_from_id
      match id, h4 with
      | n + 4, _ => rfl
    unfold Cart.new
    rw [hget]
    show (match mapper_from_id id with
      | some m => CartNew.ok m
      | none => CartNew.mapperPanicked) = CartNew.mapperPanicked
    rw [hnone]
  · intro data id hget hlt
    unfold Cart.new
    rw [hget]
    interval_cases id
    · exact ⟨.rom, rfl⟩
    · exact ⟨.mbc1, rfl⟩
    · exact ⟨.mbc1WithRam, rfl⟩
    · exact ⟨.mbc1WithBatteryRam, rfl⟩

/-- C9 witness: the amended theorem applied at concrete ROMs, discharging
every hypothesis. -/
theorem c9_cart_new_outcomes_witness :
    Cart.new [] = .invalidRom ∧
    Cart.new romC9 = CartNew.mapperPanicked ∧
    ∃ m, Cart.new (List.replicate 0x147 0 ++ [0x01]) = .ok m :=
  ⟨c9_cart_new_outcomes.1 [] (by decide),
   c9_cart_new_outcomes.2.1 romC9 0x04 (by decide) (by decide),
   c9_cart_new_outcomes.2.2 (List.replicate 0x147 0 ++ [0x01]) 0x01 (by decide) (by decide)⟩

/-! ### PPU registers

Bitflag constants from `src/src/gameboy/ppu/registers.rs` (the `registers`
module used by `gb_core/src/gameboy/ppu/monochrome.rs`).  A bitflags value is
its `u8` bits; `from_bits_truncate` keeps the defined bits (0x7F for STAT —
flag bits 0x40/0x20/0x10/0x08/0x04 plus the mode constants covering bits
0-1 — and all eight bits for LCDC). -/

def STAT.LYC_INTERRUPT_ENABLE : Nat := 0x40

def STAT.OAM_INTERRUPT_ENABLE : Nat := 0x20

def STAT.VBLANK_INTERRUPT_ENABLE : Nat := 0x10

def STAT.HBLANK_INTERRUPT_ENABLE : Nat := 0x08

def STAT.LYC_EQUALS_LY : Nat := 0x04

def STAT.MODE_BITMASK : Nat := 0xFC

def STAT.from_bits_truncate (v : Nat) : Nat := v &&& 0x7F

def LCDC.from_bits_truncate (v : Nat) : Nat := v &&& 0xFF

def LCDC.BG_TILEMAP_AREA : Nat := 0x08

def LCDC.BG_TILE_DATA_AREA : Nat := 0x10

/-- bitflags `contains`: all bits of `other` are present. -/
def bitsContains (bits other : Nat) : Bool := bits &&& other == other

/-- bitflags `set(other, value)`: insert or remove (`u8` complement is
`255 ^^^ other`). -/
def bitsSetFlag (bits other : Nat) (value : Bool) : Nat :=
  if value then bits ||| other else bits &&& (255 ^^^ other)

/-- `STAT::set_mode`: clear the two mode bits, OR in the new mode. -/
def statSetMode (stat mode : Nat) : Nat := (stat &&& STAT.MODE_BITMASK) ||| mode

/-! ### Monochrome PPU state

Embeds `MonochromePpuState` from `gb_core/src/gameboy/ppu/monochrome.rs`
(the frame buffer is treated separately by the mode-3 write model below). -/

structure MonochromePpuState where
  tile_data : Nat → Nat
  bg_map_1 : Nat → Nat
  bg_map_2 : Nat → Nat
  oam : Nat → Nat
  lcdc : Nat := 0
  stat : Nat := 0
  scy : Nat := 0
  scx : Nat := 0
  ly : Nat := 0
  lyc : Nat := 0
  wy : Nat := 0
  wx : Nat := 0
  bgp : Nat := 0
  obp0 : Nat := 0
  obp1 : Nat := 0
  vblank_irq : Bool := false
  stat_irq : Bool := false

/-- `MonochromePpuState::update_stat_interrupt`. -/
def MonochromePpuState.update_stat_interrupt (s : MonochromePpuState) :
    MonochromePpuState :=
  let mode := s.stat &&& (255 ^^^ STAT.MODE_BITMASK)
  let mode_int :=
    if mode == 0 && bitsContains s.stat STAT.HBLANK_INTERRUPT_ENABLE then true
    else if mode == 1 && bitsContains s.stat STAT.VBLANK_INTERRUPT_ENABLE then true
    else if mode == 2 && bitsContains s.stat STAT.OAM_INTERRUPT_ENABLE then true
    else false
  let lyc_int := bitsContains s.stat (STAT.LYC_INTERRUPT_ENABLE ||| STAT.LYC_EQUALS_LY)
  { s with stat_irq := mode_int || lyc_int }

/-- `MonochromePpuState::set_ly` (the source `debug_assert!(ly <= 153)` is a
development-time assertion): store LY, recompute the LYC_EQUALS_LY bit, and
update the STAT interrupt line. -/
def MonochromePpuState.set_ly (s : MonochromePpuState) (ly : Nat) :
    MonochromePpuState :=
  let s := { s with ly := ly }
  let s := { s with stat := bitsSetFlag s.stat STAT.LYC_EQUALS_LY (s.ly == s.lyc) }
  s.update_stat_interrupt

/-- `MonochromePpuState::set_mode` (`debug_assert!(mode <= 3)` in the source). -/
def MonochromePpuState.set_mode (s : MonochromePpuState) (mode : Nat) :
    MonochromePpuState :=
  let s := { s with stat := statSetMode s.stat (STAT.from_bits_truncate mode) }
  s.update_stat_interrupt

/-- The register/VRAM/OAM access match of `MonochromePpu::perform_io`
(`monochrome.rs` lines 300-347), before the interrupt block. -/
def MonochromePpuState.ioAccess (s : MonochromePpuState) (input : CpuOutputPins)
    (data : Nat) : MonochromePpuState × Nat :=
  match input with
  | .Write addr v =>
    (if 0x8000 ≤ addr ∧ addr ≤ 0x97FF then
      { s with tile_data := updFn s.tile_data (addr - 0x8000) v }
    else if 0x9800 ≤ addr ∧ addr ≤ 0x9BFF then
      { s with bg_map_1 := updFn s.bg_map_1 (addr - 0x9800) v }
    else if 0x9C00 ≤ addr ∧ addr ≤ 0x9FFF then
      { s with bg_map_2 := updFn s.bg_map_2 (addr - 0x9C00) v }
    else if 0xFE00 ≤ addr ∧ addr ≤ 0xFE9F then
      { s with oam := updFn s.oam (addr - 0xFE00) v }
    else if addr = 0xFF40 then { s with lcdc := LCDC.from_bits_truncate v }
    else if addr = 0xFF41 then
      ({ s with stat := STAT.from_bits_truncate v }).update_stat_interrupt
    else if addr = 0xFF42 then { s with scy := v }
    else if addr = 0xFF43 then { s with scx := v }
    else if addr = 0xFF44 then { s with ly := v }
    else if addr = 0xFF45 then { s with lyc := v }
    else if addr = 0xFF46 then s
    else if addr = 0xFF47 then { s with bgp := v }
    else if addr = 0xFF48 then { s with obp0 := v }
    else if addr = 0xFF49 then { s with obp1 := v }
    else if addr = 0xFF4A then { s with wy := v }
    else if addr = 0xFF4B then { s with wx := v }
    else s, data)
  | .Read addr =>
    (s,
    if 0x8000 ≤ addr ∧ addr ≤ 0x97FF then s.tile_data (addr - 0x8000)
    else if 0x9800 ≤ addr ∧ addr ≤ 0x9BFF then s.bg_map_1 (addr - 0x9800)
    else if 0x9C00 ≤ addr ∧ addr ≤ 0x9FFF then s.bg_map_2 (addr - 0x9C00)
    else if 0xFE00 ≤ addr ∧ addr ≤ 0xFE9F then s.oam (addr - 0xFE00)
    else if addr = 0xFF40 then s.lcdc
    else if addr = 0xFF41 then s.stat
    else if addr = 0xFF42 then s.scy
    else if addr = 0xFF43 then s.scx
    else if addr = 0xFF44 then s.ly
    else if addr = 0xFF45 then s.lyc
    else if addr = 0xFF46 then 0
    else if addr = 0xFF47 then s.bgp
    else if addr = 0xFF48 then s.obp0
    else if addr = 0xFF49 then s.obp1
    else if addr = 0xFF4A then s.wy
    else if addr = 0xFF4B then s.wx
    else data)

/-- `MonochromePpu::perform_io`: the access match, then the interrupt-request
block, which drives IF bits 0 and 1 to the levels of the internal
`vblank_irq` and `stat_irq` lines (`irq |= 1 << b` when high,
`irq &= !(1 << b)` when low). -/
def MonochromePpuState.performIo (s : MonochromePpuState) (input : CpuOutputPins)
    (data ir : Nat) : MonochromePpuState × Nat × Nat :=
  let a := s.ioAccess input data
  let s := a.1
  let data := a.2
  let irq := ir
  let irq := if s.vblank_irq then irq ||| (1 <<< 0) else irq &&& (255 ^^^ (1 <<< 0))
  let irq := if s.stat_irq then irq ||| (1 <<< 1) else irq &&& (255 ^^^ (1 <<< 1))
  (s, data, irq)

/-! ### Mode-3 background drawing of `ppu_gen`

Embeds the drawing loop of `ppu_gen` (`monochrome.rs` lines 224-270): the
per-tile fetch, and the inner pixel loop which stores into
`frame.pixels[160 * line + dot]`.  The writes are modelled as a list of
(index, color) pairs; `frame.pixels` is a `[u32; 144 * 160]`, so an index
of 23040 or more aborts with an index-out-of-bounds panic. -/

/-- `calculate_monochrome_color_id` (`assert!(pix < 4)` in the source). -/
def calculate_monochrome_color_id (palette pix : Nat) : Nat :=
  (palette >>> (pix * 2)) &&& 0x03

/-- `COLORS = [WHITE, LIGHTGRAY, DARKGRAY, BLACK]`. -/
def COLORS : List Nat := [0xFFFFFFFF, 0xFFAAAAAA, 0xFF777777, 0xFF000000]

/-- The `(bg_fifo_lo, bg_fifo_hi)` tile fetch (lines 228-251).  The
8800-method address is `(0x1000 + (tile_idx as i8 as i16) * 16 + tile_y * 2)
as usize`; for every tile index it lies in 2048..6142, so the `Int.toNat`
cast is exact. -/
def ppuFetch (s : MonochromePpuState) (line screen_tile_x : Nat) : Nat × Nat :=
  let tilemap := if bitsContains s.lcdc LCDC.BG_TILEMAP_AREA then s.bg_map_2 else s.bg_map_1
  let fetcher_x := ((s.scx / 8) + screen_tile_x) &&& 0x1F
  let fetcher_y := ((s.scy + line) % 256) / 8
  let tile_idx := tilemap (fetcher_y * 32 + fetcher_x)
  let tile_y := ((s.scy + line) % 256) % 8
  if bitsContains s.lcdc LCDC.BG_TILE_DATA_AREA then
    let offset := tile_idx * 16 + tile_y * 2
    (s.tile_data offset, s.tile_data (offset + 1))
  else
    let signed : Int := if tile_idx < 128 then (tile_idx : Int) else (tile_idx : Int) - 256
    let offset := (0x1000 + signed * 16 + (tile_y : Int) * 2).toNat
    (s.tile_data offset, s.tile_data (offset + 1))

/-- The inner pixel loop `while x < 8 { .. dot += 1 }` (lines 253-267).
Returns the final `x`, the final `dot`, and the (index, color) writes, in
order.  The loop runs at most 8 times, counted by `fuel = 8`. -/
def mode3Inner (lo hi bgp line : Nat) : Nat → Nat → Nat → Nat × Nat × List (Nat × Nat)
  | 0, x, dot => (x, dot, [])
  | fuel + 1, x, dot =>
    if x < 8 then
      let bit := 7 - x
      let x' := x + 1
      let bg_color_hi := (hi >>> bit) &&& 1
      let bg_color_lo := (lo >>> bit) &&& 1
      let bg_color := (bg_color_hi <<< 1) ||| bg_color_lo
      let cid := calculate_monochrome_color_id bgp bg_color
      let write := (160 * line + dot, COLORS.getD cid 0)
      let r := mode3Inner lo hi bgp line fuel x' (dot + 1)
      (r.1, r.2.1, write :: r.2.2)
    else (x, dot, [])

/-- The outer loop `while dot < 160` (lines 227-270): fetch a tile, run the
inner pixel loop, then reset `x` to 0 and advance `screen_tile_x`.  The outer
loop runs at most 161 times; `fuel` bounds it. -/
def mode3Outer (s : MonochromePpuState) (line : Nat) :
    Nat → Nat → Nat → Nat → List (Nat × Nat)
  | 0, _, _, _ => []
  | fuel + 1, dot, x, screen_tile_x =>
    if dot < 160 then
      let f := ppuFetch s line screen_tile_x
      let r := mode3Inner f.1 f.2 s.bgp line 8 x dot
      r.2.2 ++ mode3Outer s line fuel r.2.1 0 (screen_tile_x + 1)
    else []

/-- All frame-buffer writes of one mode-3 line: `dot = 0`, `x = ppu.scx`,
`screen_tile_x = 0` (line 224-226). -/
def mode3LineWrites (s : MonochromePpuState) (line : Nat) : List (Nat × Nat) :=
  mode3Outer s line 200 0 s.scx 0

/-! ### Joypad chip

Embeds `Joypad` from `gb_core/src/gameboy/joypad.rs`. -/

structure Joypad where
  start : Bool := false
  btnSelect : Bool := false
  b : Bool := false
  a : Bool := false
  down : Bool := false
  up : Bool := false
  left : Bool := false
  right : Bool := false
  p1 : Nat := 0
deriving DecidableEq

/-- `bool_to_bit` (its `assert!(bit < 8)` holds at every call site). -/
def bool_to_bit (b : Bool) (bit : Nat) : Nat := if b then 1 <<< bit else 0

/-- `Chip::clock for Joypad`: register access, recompute the low nybble from
the selected rows (buttons active-low), and request interrupt bit 4 on a
transition of the low nybble from all-ones to any zero. -/
def Joypad.clock (j : Joypad) (input : CpuOutputPins) (data ir : Nat) :
    Joypad × Nat × Nat :=
  let a1 :=
    match input with
    | .Write 0xFF00 v => ({ j with p1 := v &&& 0b00110000 }, data)
    | .Read 0xFF00 => (j, j.p1)
    | _ => (j, data)
  let j := a1.1
  let data := a1.2
  let action_buttons :=
    if j.p1 &&& 0b00100000 == 0 then
      0x0F &&& (255 ^^^ bool_to_bit j.start 3) &&& (255 ^^^ bool_to_bit j.btnSelect 2) &&&
        (255 ^^^ bool_to_bit j.b 1) &&& (255 ^^^ bool_to_bit j.a 0)
    else 0x0F
  let direction_buttons :=
    if j.p1 &&& 0b00010000 == 0 then
      0x0F &&& (255 ^^^ bool_to_bit j.down 3) &&& (255 ^^^ bool_to_bit j.up 2) &&&
        (255 ^^^ bool_to_bit j.left 1) &&& (255 ^^^ bool_to_bit j.right 0)
    else 0x0F
  let old_p1 := j.p1
  let j := { j with p1 := (old_p1 &&& 0xF0) ||| (action_buttons &&& direction_buttons) }
  let interrupt := (old_p1 &&& 0x0F == 0x0F) && (j.p1 &&& 0x0F != 0x0F)
  let ir := if interrupt then ir ||| (1 <<< 4) else ir
  (j, data, ir)

/-! ### Top-level bus step

Embeds the bus portion of `Gameboy::clock` (`gb_core/src/gameboy/mod.rs`
lines 73-114): every chip is clocked in declared order (PPU, Memory, Cart,
Timer, Joypad) with the data accumulator starting at 0xFF and the
interrupt-request byte threaded through; then the top level intercepts
writes and reads of 0xFF0F (IF) and 0xFFFF (IE) and assembles the next CPU
input.  `tstep` abstracts the PPU generator's four T-states that follow
`perform_io` inside the PPU chip clock; they never touch the IF byte. -/

/-- The Cart chip pass: the mapper drives the data line for addresses in its
ranges (`chip_select`: 0x0000-0x7FFF and 0xA000-0xBFFF) and consumes writes;
no mapper touches the interrupt-request byte. -/
def Mbc1.clockBus (m : Mbc1) (input : CpuOutputPins) (data ir : Nat) :
    Mbc1 × Nat × Nat :=
  if input.addr ≤ 0x7FFF ∨ (0xA000 ≤ input.addr ∧ input.addr ≤ 0xBFFF) then
    let r := Mbc1.clock m input
    match input with
    | .Read _ => (r.1, r.2, ir)
    | .Write _ _ => (r.1, data, ir)
  else (m, data, ir)

structure GameboyChips where
  ppu : MonochromePpuState
  mem : Memory
  cart : Mbc1
  timer : Timer
  joypad : Joypad

structure BusStepOut where
  chips : GameboyChips
  ifReg : Nat
  ieReg : Nat
  next : CpuInputPins

def busStep (tstep : MonochromePpuState → MonochromePpuState)
    (g : GameboyChips) (ie ifr : Nat) (cpu_out : CpuOutputPins) : BusStepOut :=
  let p := g.ppu.performIo cpu_out 0xFF ifr
  let ppu1 := tstep p.1
  let m := g.mem.clock cpu_out p.2.1 p.2.2
  let c := g.cart.clockBus cpu_out m.2.1 m.2.2
  let t := g.timer.clock cpu_out c.2.1 c.2.2
  let jo := g.joypad.clock cpu_out t.2.1 t.2.2
  let ifr1 := jo.2.2
  let bus_output := jo.2.1
  -- `match cpu_out { Write 0xFF0F => IF := data & 0x1F, Write 0xFFFF => IE := data & 0x1F }`
  let over :=
    match cpu_out with
    | .Write a d =>
      if a = 0xFF0F then (d &&& 0x1F, ie)
      else if a = 0xFFFF then (ifr1, d &&& 0x1F)
      else (ifr1, ie)
    | .Read _ => (ifr1, ie)
  let ifr2 := over.1
  let ie2 := over.2
  let interrupt_requests := ie2 &&& ifr2
  { chips := { ppu := ppu1, mem := m.1, cart := c.1, timer := t.1, joypad := jo.1 },
    ifReg := ifr2,
    ieReg := ie2,
    next :=
      { data :=
          match cpu_out with
          | .Read a => if a = 0xFF0F then ifr2 else if a = 0xFFFF then ie2 else bus_output
          | .Write _ _ => bus_output,
        interrupt_40h := interrupt_requests &&& (1 <<< 0) != 0,
        interrupt_48h := interrupt_requests &&& (1 <<< 1) != 0,
        interrupt_50h := interrupt_requests &&& (1 <<< 2) != 0,
        interrupt_58h := interrupt_requests &&& (1 <<< 3) != 0,
        interrupt_60h := interrupt_requests &&& (1 <<< 4) != 0 } }

/-! ### Bitwise helper lemmas -/

theorem or_flag_and (x m : Nat) : (x ||| m) &&& m = m := by
  apply Nat.eq_of_testBit_eq
  intro i
  simp only [Nat.testBit_and, Nat.testBit_or]
  cases hx : x.testBit i <;> cases hm : m.testBit i <;> simp

theorem or_and_distrib (x y m : Nat) : (x ||| y) &&& m = (x &&& m) ||| (y &&& m) := by
  apply Nat.eq_of_testBit_eq
  intro i
  simp only [Nat.testBit_and, Nat.testBit_or]
  cases hx : x.testBit i <;> cases hy : y.testBit i <;> cases hm : m.testBit i <;> simp

theorem and_or_absorb (x y : Nat) : x &&& (x ||| y) = x := by
  apply Nat.eq_of_testBit_eq
  intro i
  simp only [Nat.testBit_and, Nat.testBit_or]
  cases hx : x.testBit i <;> simp

theorem mask_or_small {x m k : Nat} (h : k &&& m = 0) : (x ||| k) &&& m = x &&& m := by
  rw [or_and_distrib, h, Nat.or_zero]

theorem mask_and_large {x m k : Nat} (h : k &&& m = m) : (x &&& k) &&& m = x &&& m := by
  rw [Nat.and_assoc, h]

theorem testBit_or_set {x k : Nat} (i : Nat) (h : k.testBit i = true) :
    (x ||| k).testBit i = true := by
  simp [Nat.testBit_or, h]

theorem testBit_or_keep {x k : Nat} (i : Nat) (h : k.testBit i = false) :
    (x ||| k).testBit i = x.testBit i := by
  simp [Nat.testBit_or, h]

theorem testBit_and_clear {x k : Nat} (i : Nat) (h : k.testBit i = false) :
    (x &&& k).testBit i = false := by
  simp [Nat.testBit_and, h]

theorem testBit_and_keep {x k : Nat} (i : Nat) (h : k.testBit i = true) :
    (x &&& k).testBit i = x.testBit i := by
  simp [Nat.testBit_and, h]

theorem and_ite_or (ir k : Nat) (c : Bool) :
    ir &&& (if c then ir ||| k else ir) = ir := by
  cases c
  · exact Nat.and_self ir
  · exact and_or_absorb ir k

theorem bitsSub_trans {a b c : Nat} (h1 : a &&& b = a) (h2 : b &&& c = b) :
    a &&& c = a := by
  apply Nat.eq_of_testBit_eq
  intro i
  have t1 := congrArg (fun n => n.testBit i) h1
  have t2 := congrArg (fun n => n.testBit i) h2
  simp only [Nat.testBit_and] at t1 t2 ⊢
  cases ha : a.testBit i <;> cases hb : b.testBit i <;> cases hc : c.testBit i <;>
    simp_all

theorem bitsSub_of_masked_eq {ir ir1 m : Nat} (h : ir1 &&& m = ir &&& m) :
    (ir &&& m) &&& ir1 = ir &&& m := by
  apply Nat.eq_of_testBit_eq
  intro i
  have t := congrArg (fun n => n.testBit i) h
  simp only [Nat.testBit_and] at t ⊢
  cases hm : m.testBit i <;> cases hr : ir.testBit i <;> simp_all

/-! ### Per-chip interrupt-request lemmas -/

/-- `Timer::clock` only ORs into the interrupt-request byte. -/
theorem timer_ir_monotone (t : Timer) (input : CpuOutputPins) (data ir : Nat) :
    ir &&& (Timer.clock t input data ir).2.2 = ir := by
  unfold Timer.clock
  dsimp only
  split
  · split
    · exact and_or_absorb ir 0b100
    · exact Nat.and_self ir
  · exact Nat.and_self ir

/-- `Joypad::clock` only ORs into the interrupt-request byte. -/
theorem joypad_ir_monotone (j : Joypad) (input : CpuOutputPins) (data ir : Nat) :
    ir &&& (Joypad.clock j input data ir).2.2 = ir := by
  unfold Joypad.clock
  dsimp only
  exact and_ite_or ir (1 <<< 4) _

/-- `Memory::clock` never touches the interrupt-request byte. -/
theorem memory_ir_id (m : Memory) (input : CpuOutputPins) (data ir : Nat) :
    (Memory.clock m input data ir).2.2 = ir := by
  cases input <;> unfold Memory.clock <;> dsimp only <;> split <;> rfl

/-- The Cart pass never touches the interrupt-request byte. -/
theorem cart_ir_id (c : Mbc1) (input : CpuOutputPins) (data ir : Nat) :
    (Mbc1.clockBus c input data ir).2.2 = ir := by
  cases input <;> unfold Mbc1.clockBus <;> dsimp only <;> split <;> rfl

/-- The interrupt block of `perform_io` drives bits 0 and 1 to the levels of
the internal lines and leaves every bit from 2 upward unchanged. -/
theorem ppu_ir_spec (s : MonochromePpuState) (input : CpuOutputPins) (data ir : Nat) :
    (s.performIo input data ir).2.2 &&& 0xFC = ir &&& 0xFC ∧
    ((s.performIo input data ir).2.2).testBit 0 = (s.performIo input data ir).1.vblank_irq ∧
    ((s.performIo input data ir).2.2).testBit 1 = (s.performIo input data ir).1.stat_irq := by
  unfold MonochromePpuState.performIo
  dsimp only
  cases hv : (s.ioAccess input data).1.vblank_irq <;>
    cases hs : (s.ioAccess input data).1.stat_irq <;>
      simp only [hv, hs, if_true, if_false, Bool.false_eq_true, ite_true, ite_false]
  · refine ⟨?_, ?_, ?_⟩
    · rw [mask_and_large (by decide : ((255 ^^^ (1 <<< 1)) &&& 0xFC : Nat) = 0xFC),
        mask_and_large (by decide : ((255 ^^^ (1 <<< 0)) &&& 0xFC : Nat) = 0xFC)]
    · rw [testBit_and_keep 0 (by decide), testBit_and_clear 0 (by decide)]
    · rw [testBit_and_clear 1 (by decide)]
  · refine ⟨?_, ?_, ?_⟩
    · rw [mask_or_small (by decide : ((1 <<< 1) &&& 0xFC : Nat) = 0),
        mask_and_large (by decide : ((255 ^^^ (1 <<< 0)) &&& 0xFC : Nat) = 0xFC)]
    · rw [testBit_or_keep 0 (by decide), testBit_and_clear 0 (by decide)]
    · rw [testBit_or_set 1 (by decide)]
  · refine ⟨?_, ?_, ?_⟩
    · rw [mask_and_large (by decide : ((255 ^^^ (1 <<< 1)) &&& 0xFC : Nat) = 0xFC),
        mask_or_small (by decide : ((1 <<< 0) &&& 0xFC : Nat) = 0)]
    · rw [testBit_and_keep 0 (by decide), testBit_or_set 0 (by decide)]
    · rw [testBit_and_clear 1 (by decide)]
  · refine ⟨?_, ?_, ?_⟩
    · rw [mask_or_small (by decide : ((1 <<< 1) &&& 0xFC : Nat) = 0),
        mask_or_small (by decide : ((1 <<< 0) &&& 0xFC : Nat) = 0)]
    · rw [testBit_or_keep 0 (by decide), testBit_or_set 0 (by decide)]
    · rw [testBit_or_set 1 (by decide)]

/-! ### Concrete PPU states used as inputs -/

def ppuZero : MonochromePpuState :=
  { tile_data := fun _ => 0, bg_map_1 := fun _ => 0, bg_map_2 := fun _ => 0,
    oam := fun _ => 0 }

/-- A PPU state satisfying the C6 invariants: LY = LYC = 0 with the
LYC_EQUALS_LY bit set. -/
def ppuC6 : MonochromePpuState :=
  { ppuZero with stat := 0x04 }

/-- The PPU state for the C10 failing input: SCX = 1, all memories zero. -/
def ppuC10 : MonochromePpuState :=
  { ppuZero with scx := 1 }

/-! ### Claim theorems: C6, C7, C10 -/

/-- C6 counterexample: starting from a state satisfying the invariants
(LY = LYC = 0, coincidence bit set), the CPU write of 200 to 0xFF44 handled
by `perform_io` sets LY := 200 > 153, and the write of 7 to 0xFF45 sets
LYC := 7 while leaving the coincidence bit set, so LY == LYC no longer
matches STAT's LYC_EQUALS_LY bit: the claimed preservation by writes to
0xFF44/0xFF45 fails. -/
theorem c6_ly_write_breaks_invariant :
    (ppuC6.ly ≤ 153 ∧ ((ppuC6.stat &&& 0x04 == 0x04) = (ppuC6.ly == ppuC6.lyc))) ∧
    (ppuC6.performIo (.Write 0xFF44 200) 0xFF 0).1.ly = 200 ∧
    ¬((ppuC6.performIo (.Write 0xFF44 200) 0xFF 0).1.ly ≤ 153) ∧
    ((ppuC6.performIo (.Write 0xFF45 7) 0xFF 0).1.stat &&& 0x04 == 0x04) = true ∧
    ((ppuC6.performIo (.Write 0xFF45 7) 0xFF 0).1.ly ==
        (ppuC6.performIo (.Write 0xFF45 7) 0xFF 0).1.lyc) = false := by
  refine ⟨⟨by decide, by decide⟩, by decide, by decide, by decide, by decide⟩

/-- C6 amended: the PPU's internal transitions maintain the invariants —
`set_ly` (whose argument is at most 153 at every internal call site) keeps
LY in [0,153] and makes STAT's LYC_EQUALS_LY bit track LY = LYC, `set_mode`
with a mode at most 3 leaves LY, LYC and the coincidence bit unchanged, and
the two-bit mode field is always in {0,1,2,3} — but the CPU writes to
0xFF44/0xFF45 handled by `perform_io` assign LY/LYC directly without
recomputing the coincidence bit and so do not preserve the invariants
(witnessed by LY := 200). -/
theorem c6_ppu_internal_invariants :
    (∀ (s : MonochromePpuState) (v : Nat), v ≤ 153 →
      (s.set_ly v).ly ≤ 153 ∧
      (((s.set_ly v).stat &&& 0x04 = 0x04) ↔ (s.set_ly v).ly = (s.set_ly v).lyc)) ∧
    (∀ (s : MonochromePpuState) (m : Nat), m ≤ 3 →
      (s.set_mode m).ly = s.ly ∧ (s.set_mode m).lyc = s.lyc ∧
      (s.set_mode m).stat &&& 0x04 = s.stat &&& 0x04) ∧
    (∀ s : MonochromePpuState, s.stat &&& 0x03 < 4) ∧
    (ppuC6.performIo (.Write 0xFF44 200) 0xFF 0).1.ly = 200 := by
  refine ⟨?_, ?_, ?_, by decide⟩
  · intro s v hv
    have hly : (s.set_ly v).ly = v := rfl
    have hlyc : (s.set_ly v).lyc = s.lyc := rfl
    have hstat : (s.set_ly v).stat = bitsSetFlag s.stat STAT.LYC_EQUALS_LY (v == s.lyc) :=
      rfl
    refine ⟨by rw [hly]; exact hv, ?_⟩
    rw [hly, hlyc, hstat]
    simp only [bitsSetFlag, STAT.LYC_EQUALS_LY]
    cases hb : (v == s.lyc) with
    | true =>
      have hv' : v = s.lyc := eq_of_beq hb
      simp only [if_true]
      rw [or_flag_and]
      exact iff_of_true rfl hv'
    | false =>
      have hv' : ¬(v = s.lyc) := ne_of_beq_false hb
      simp only [Bool.false_eq_true, if_false]
      have hzero : s.stat &&& (255 ^^^ 0x04) &&& 0x04 = 0 :=
        and_mask_zero s.stat (255 ^^^ 0x04) 0x04 (by decide)
      rw [hzero]
      exact iff_of_false (by decide) hv'
  · intro s m hm
    have hstat : (s.set_mode m).stat = statSetMode s.stat (STAT.from_bits_truncate m) :=
      rfl
    refine ⟨rfl, rfl, ?_⟩
    rw [hstat]
    unfold statSetMode STAT.from_bits_truncate STAT.MODE_BITMASK
    have hm127 : m &&& 0x7F = m := by
      interval_cases m <;> decide
    rw [hm127, or_and_distrib]
    have h1 : s.stat &&& 0xFC &&& 0x04 = s.stat &&& 0x04 :=
      mask_and_large (by decide)
    have h2 : m &&& 0x04 = 0 := by
      interval_cases m <;> decide
    rw [h1, h2, Nat.or_zero]
  · intro s
    exact Nat.lt_succ_of_le (Nat.and_le_right)

/-- C6 witness: the amended theorem applied at concrete inputs, discharging
every hypothesis. -/
theorem c6_ppu_internal_invariants_witness :
    ((ppuZero.set_ly 5).ly ≤ 153 ∧
      (((ppuZero.set_ly 5).stat &&& 0x04 = 0x04) ↔
        (ppuZero.set_ly 5).ly = (ppuZero.set_ly 5).lyc)) ∧
    ((ppuZero.set_mode 2).ly = ppuZero.ly ∧ (ppuZero.set_mode 2).lyc = ppuZero.lyc ∧
      (ppuZero.set_mode 2).stat &&& 0x04 = ppuZero.stat &&& 0x04) :=
  ⟨c6_ppu_internal_invariants.1 ppuZero 5 (by decide),
   c6_ppu_internal_invariants.2.1 ppuZero 2 (by decide)⟩

/-- C7 counterexample: the PPU chip clock does not only OR bits into the
interrupt-request byte.  With a fresh PPU (both internal lines low) and an IF
byte with bits 0 and 1 set, `perform_io` on an idle bus clears both bits. -/
theorem c7_ppu_clears_if_bits :
    (ppuZero.performIo (.Read 0x0000) 0xFF 0x03).2.2 = 0 ∧
    (0x03 : Nat) &&& 0x01 = 0x01 ∧
    (0x03 : Nat) &&& 0x02 = 0x02 := by
  refine ⟨by decide, by decide, by decide⟩

/-- C7 amended: Timer and Joypad only OR bits into the IF byte and Memory
and Cart never touch it, but the PPU drives IF bits 0 and 1 to the levels of
its internal vblank/stat lines (possibly clearing them) while preserving all
bits from 2 upward; consequently, over a whole top-level clock, every IF bit
from 2 upward survives unless the CPU writes 0xFF0F, in which case IF becomes
`data & 0x1F`. -/
theorem c7_if_bit_provenance :
    (∀ (t : Timer) (input : CpuOutputPins) (data ir : Nat),
      ir &&& (Timer.clock t input data ir).2.2 = ir) ∧
    (∀ (j : Joypad) (input : CpuOutputPins) (data ir : Nat),
      ir &&& (Joypad.clock j input data ir).2.2 = ir) ∧
    (∀ (m : Memory) (input : CpuOutputPins) (data ir : Nat),
      (Memory.clock m input data ir).2.2 = ir) ∧
    (∀ (c : Mbc1) (input : CpuOutputPins) (data ir : Nat),
      (Mbc1.clockBus c input data ir).2.2 = ir) ∧
    (∀ (s : MonochromePpuState) (input : CpuOutputPins) (data ir : Nat),
      (s.performIo input data ir).2.2 &&& 0xFC = ir &&& 0xFC ∧
      ((s.performIo input data ir).2.2).testBit 0 =
        (s.performIo input data ir).1.vblank_irq ∧
      ((s.performIo input data ir).2.2).testBit 1 =
        (s.performIo input data ir).1.stat_irq) ∧
    (∀ (tstep : MonochromePpuState → MonochromePpuState) (g : GameboyChips)
      (ie ifr : Nat) (cpu_out : CpuOutputPins),
      (∀ d, cpu_out ≠ .Write 0xFF0F d) →
      (ifr &&& 0xFC) &&& (busStep tstep g ie ifr cpu_out).ifReg = ifr &&& 0xFC) ∧
    (∀ (tstep : MonochromePpuState → MonochromePpuState) (g : GameboyChips)
      (ie ifr d : Nat),
      (busStep tstep g ie ifr (.Write 0xFF0F d)).ifReg = d &&& 0x1F) := by
  refine ⟨timer_ir_monotone, joypad_ir_monotone, memory_ir_id, cart_ir_id,
    ppu_ir_spec, ?_, ?_⟩
  · intro tstep g ie ifr cpu_out hno
    have hppu := (ppu_ir_spec g.ppu cpu_out 0xFF ifr).1
    have h0 : (ifr &&& 0xFC) &&& (g.ppu.performIo cpu_out 0xFF ifr).2.2 = ifr &&& 0xFC :=
      bitsSub_of_masked_eq hppu
    unfold busStep
    dsimp only
    rw [memory_ir_id, cart_ir_id]
    have h1 : (ifr &&& 0xFC) &&&
        (Timer.clock g.timer cpu_out
          (Mbc1.clockBus g.cart cpu_out
            (Memory.clock g.mem cpu_out (g.ppu.performIo cpu_out 0xFF ifr).2.1
              (g.ppu.performIo cpu_out 0xFF ifr).2.2).2.1
            (g.ppu.performIo cpu_out 0xFF ifr).2.2).2.1
          (g.ppu.performIo cpu_out 0xFF ifr).2.2).2.2 = ifr &&& 0xFC :=
      bitsSub_trans h0 (timer_ir_monotone _ _ _ _)
    cases cpu_out with
    | Read a => exact bitsSub_trans h1 (joypad_ir_monotone _ _ _ _)
    | Write a d =>
      have ha : ¬(a = 0xFF0F) := fun h => hno d (by rw [h])
      dsimp only
      rw [if_neg ha]
      split
      · exact bitsSub_trans h1 (joypad_ir_monotone _ _ _ _)
      · exact bitsSub_trans h1 (joypad_ir_monotone _ _ _ _)
  · intro tstep g ie ifr d
    unfold busStep
    dsimp only
    simp

/-- A concrete chip assembly used by the C7 witness. -/
def chipsC7 : GameboyChips :=
  { ppu := ppuZero, mem := memC3, cart := mbc1C4, timer := {}, joypad := {} }

/-- C7 witness: the amended theorem applied at concrete inputs, discharging
every hypothesis. -/
theorem c7_if_bit_provenance_witness :
    ((0x1F &&& 0xFC) &&& (busStep id chipsC7 0 0x1F (.Read 0x0000)).ifReg
        = 0x1F &&& 0xFC) ∧
    (busStep id chipsC7 0 0x1F (.Write 0xFF0F 0x15)).ifReg = 0x15 &&& 0x1F :=
  ⟨c7_if_bit_provenance.2.2.2.2.2.1 id chipsC7 0 0x1F (.Read 0x0000)
      (fun _ h => CpuOutputPins.noConfusion h),
   c7_if_bit_provenance.2.2.2.2.2.2 id chipsC7 0 0x1F 0x15⟩

/-- C10: the mode-3 drawing loop of `ppu_gen` indexes the frame buffer out of
bounds.  With SCX = 1, the dots written on a line are 0..6 from the first
tile and then full groups of 8, so the final outer iteration starts at
dot = 159 and writes dots 159..166; on line 143 this stores to
`frame.pixels[160 * 143 + 160]` = index 23040 in a `[u32; 144 * 160]` of
length 23040 — an out-of-bounds panic. -/
theorem c10_mode3_pixel_overflow :
    ((mode3LineWrites ppuC10 143).map Prod.fst).contains (160 * 143 + 160) = true ∧
    144 * 160 ≤ 160 * 143 + 160 := by
  refine ⟨by decide, by decide⟩

end GB
